import Mathlib

/-!
Verification of the hq-launcher install/sync core (src-tauri/src/mod_config.rs,
src-tauri/src/installer.rs) against its natural-language specification.

The Rust code is shallowly embedded: `BTreeMap<u32, String>` becomes an
association list `List (Nat × String)` whose keys are strictly ascending (the
BTreeMap iteration invariant, carried as a hypothesis where needed); fallible
operations become `Except String`; the filesystem relevant to the config
linker and the add-only copy becomes an inductive tree of named files and
directories (no symlinks inside trees; directory junctions at the per-version
config path are modelled explicitly as a separate link state).
-/

/-- Mirrors `ModEntry` of mod_config.rs. `version_config` is the BTreeMap as an
ascending association list (threshold game version → pinned package version). -/
structure ModEntry where
  name : String
  dev : String
  enabled : Bool
  low_cap : Option Nat
  high_cap : Option Nat
  version_config : List (Nat × String)
deriving Repr, DecidableEq

/-- Mirrors `ModEntry::is_compatible` (mod_config.rs lines 128-143): early
return false when disabled, when below `low_cap`, or when above `high_cap`. -/
def is_compatible (m : ModEntry) (game_version : Nat) : Bool :=
  if !m.enabled then
    false
  else if (match m.low_cap with | some min => decide (game_version < min) | none => false) then
    false
  else if (match m.high_cap with | some max => decide (max < game_version) | none => false) then
    false
  else
    true

/-- Mirrors `self.version_config.range(..=game_version).next_back()` on a
BTreeMap iterated ascending: the last entry (greatest key, given ascending
keys) among those with key ≤ `game_version`. -/
def versionConfigRangeLast : List (Nat × String) → Nat → Option (Nat × String)
  | [], _ => none
  | e :: t, gv =>
    match versionConfigRangeLast t gv with
    | some r => some r
    | none => if e.1 ≤ gv then some e else none

/-- Rust `str::trim`: drop leading and trailing whitespace (executable
character-list form of the library trim). -/
def strTrim (s : String) : String :=
  String.mk ((s.toList.dropWhile Char.isWhitespace).reverse.dropWhile Char.isWhitespace).reverse

/-- Mirrors `ModEntry::pinned_version_for` (mod_config.rs lines 145-159):
greatest threshold key ≤ game_version; a value whose `trim` equals the
sentinel "0.0.0" means "no pin". -/
def pinned_version_for (vc : List (Nat × String)) (game_version : Nat) : Option String :=
  match versionConfigRangeLast vc game_version with
  | none => none
  | some e => if strTrim e.2 = "0.0.0" then none else some e.2

/-- Keys strictly ascending: the BTreeMap iteration-order invariant. -/
def AscKeys (vc : List (Nat × String)) : Prop :=
  List.Pairwise (fun a b => a.1 < b.1) vc

instance (vc : List (Nat × String)) : Decidable (AscKeys vc) := by
  unfold AscKeys; infer_instance

/-- File-system tree: a file with contents, or a directory with named entries
in read_dir order. -/
inductive FsTree where
  | file (content : String)
  | dir (entries : List (String × FsTree))
deriving Repr

/-- Entry named `n` (names are unique on a real file system; first match). -/
def lookupEntry (n : String) : List (String × FsTree) → Option FsTree
  | [] => none
  | (m, t) :: rest => if m = n then some t else lookupEntry n rest

/-- Replace the entry named `n`, appending it when absent. -/
def updateEntry (n : String) (t : FsTree) : List (String × FsTree) → List (String × FsTree)
  | [] => [(n, t)]
  | (m, u) :: rest => if m = n then (m, t) :: rest else (m, u) :: updateEntry n t rest

/-- The recursive body of `copy_dir_add_only` (installer.rs lines 120-139) on
directory entries: walk the source entries in order; for a subdirectory,
recurse (the nested create_dir_all fails when a plain file occupies the
destination name); for a file, copy only when nothing exists at the
destination name. Returns the destination entries as mutated so far together
with the first error, if any (the `?` operator stops at the first error,
leaving the copies already made in place). -/
def copyEntries : List (String × FsTree) → List (String × FsTree) →
    List (String × FsTree) × Option String
  | [], d => (d, none)
  | (n, FsTree.file c) :: rest, d =>
    match lookupEntry n d with
    | some _ => copyEntries rest d
    | none => copyEntries rest (d ++ [(n, FsTree.file c)])
  | (n, FsTree.dir srcSub) :: rest, d =>
    match lookupEntry n d with
    | some (FsTree.file _) => (d, some "create_dir_all failed")
    | some (FsTree.dir dSub) =>
      match copyEntries srcSub dSub with
      | (d2, some e) => (updateEntry n (FsTree.dir d2) d, some e)
      | (d2, none) => copyEntries rest (updateEntry n (FsTree.dir d2) d)
    | none =>
      match copyEntries srcSub [] with
      | (d2, some e) => (updateEntry n (FsTree.dir d2) d, some e)
      | (d2, none) => copyEntries rest (updateEntry n (FsTree.dir d2) d)

/-- Follow a relative path inside a tree. -/
def FsTree.getPath : FsTree → List String → Option FsTree
  | t, [] => some t
  | FsTree.file _, _ :: _ => none
  | FsTree.dir es, n :: p =>
    match lookupEntry n es with
    | some t => FsTree.getPath t p
    | none => none

/-- `std::fs::create_dir_all`: create the directory at `p` and any missing
parents; fail when a plain file occupies a component. -/
def createDirAll : FsTree → List String → Option FsTree
  | FsTree.file _, _ => none
  | FsTree.dir es, [] => some (FsTree.dir es)
  | FsTree.dir es, n :: p =>
    match createDirAll ((lookupEntry n es).getD (FsTree.dir [])) p with
    | some t' => some (FsTree.dir (updateEntry n t' es))
    | none => none

/-- Overwrite the directory entries found at path `p` (used after a successful
`createDirAll p`, so the path exists and is a directory). -/
def writeDirAt : FsTree → List String → List (String × FsTree) → FsTree
  | _, [], d => FsTree.dir d
  | FsTree.file c, _ :: _, _ => FsTree.file c
  | FsTree.dir es, n :: p, d =>
    FsTree.dir (updateEntry n (writeDirAt ((lookupEntry n es).getD (FsTree.dir [])) p d) es)

/-- Path-level `copy_dir_add_only(src, dst)` (installer.rs lines 110-141) on a
root tree. The model has no symlinks, so `canonicalize` is the identity on
existing paths and the canonical-equality short circuit coincides with the
textual equality already tested first; after it, create_dir_all(dst), then
read_dir(src) and the entry walk. -/
def copy_dir_add_only (fs : FsTree) (src dst : List String) : FsTree × Option String :=
  if src = dst then (fs, none)
  else
    match createDirAll fs dst with
    | none => (fs, some "create_dir_all failed")
    | some fs1 =>
      match fs1.getPath src with
      | some (FsTree.dir srcE) =>
        let dE := match fs1.getPath dst with
          | some (FsTree.dir es) => es
          | _ => []
        let r := copyEntries srcE dE
        (writeDirAt fs1 dst r.1, r.2)
      | _ => (fs1, some "read_dir failed")

-- ===== junction model =====

/-- Build platform: the `cfg(windows)` / `cfg(not(windows))` split. -/
inductive Platform where
  | windows
  | other
deriving Repr, DecidableEq

/-- What occupies the per-version config path `game_root/BepInEx/config`. -/
inductive LinkState where
  | absent
  | junctionTo (toShared : Bool)
  | realDir (entries : List (String × FsTree))
  | plainFile
deriving Repr

/-- Mutating file-system operations of ensure_config_junction, recorded for
the idempotence claim; the two unconditional create_dir_all calls on the
already-existing shared and BepInEx directories move nothing and are not
recorded. -/
inductive COp where
  | removeDirLink
  | removeDirAll
  | removeFile
  | copyToShared
  | createJunction
  | createPlainDir
deriving Repr, DecidableEq

/-- is_reparse_point (installer.rs lines 143-153): on windows, checks
FILE_ATTRIBUTE_REPARSE_POINT (true exactly for junctions/symlinks); on other
platforms the stub always reports false. -/
def is_reparse_point (plat : Platform) (l : LinkState) : Bool :=
  match plat, l with
  | Platform.windows, LinkState.junctionTo _ => true
  | Platform.windows, _ => false
  | Platform.other, _ => false

/-- create_dir_junction (installer.rs lines 155-178): on windows, `mklink /J`
creates a junction to the target (modelled as succeeding); on other platforms
the best-effort fallback just runs create_dir_all on the link path, returning
the same Ok(()) success value. Besides the result, the model returns the
resulting link state and the operation performed. -/
def create_dir_junction (plat : Platform) : Except String Unit × LinkState × COp :=
  match plat with
  | Platform.windows => (Except.ok (), LinkState.junctionTo true, COp.createJunction)
  | Platform.other => (Except.ok (), LinkState.realDir [], COp.createPlainDir)

/-- `canonicalize(link) == canonicalize(shared)`: with no symlinks inside
trees, only a junction whose target is the shared directory canonicalizes to
it; for absent paths canonicalize errors and the check falls through. -/
def canonResolvesToShared : LinkState → Bool
  | LinkState.junctionTo b => b
  | _ => false

/-- Path of the shared configuration directory (app_data/config/shared),
recomputed identically on every call of shared_config_dir. -/
def sharedConfigPath : String := "config/shared"

structure EnsureOut where
  res : Except String String
  shared : List (String × FsTree)
  link : LinkState
  ops : List COp
deriving Repr

/-- Create the junction (or fallback directory) at the now-free link path and
return the shared path, as the tail of ensure_config_junction does. -/
def finishJunction (plat : Platform) (shared : List (String × FsTree)) (ops : List COp) :
    EnsureOut :=
  match create_dir_junction plat with
  | (Except.ok _, l, op) =>
    { res := Except.ok sharedConfigPath, shared := shared, link := l, ops := ops ++ [op] }
  | (Except.error e, l, op) =>
    { res := Except.error e, shared := shared, link := l, ops := ops ++ [op] }

/-- ensure_config_junction (installer.rs lines 184-217), acting on the shared
config directory entries and the state of `game_root/BepInEx/config`:
return at once when the path already canonically resolves to the shared
directory; remove a junction pointing elsewhere (only the link); for a
genuine directory, run the add-only copy into shared — its error is discarded
(`let _ =`) — and then remove the tree; delete a plain file; finally create
the junction (or the non-windows fallback directory). Removals are modelled
as succeeding; a stray directory symlink on a non-windows build (which the
fallback itself never creates) would fail is_reparse_point and be walked as a
directory of unknown contents, modelled empty. -/
def ensure_config_junction (plat : Platform) (shared0 : List (String × FsTree))
    (link : LinkState) : EnsureOut :=
  match link with
  | LinkState.absent => finishJunction plat shared0 []
  | LinkState.junctionTo b =>
    if canonResolvesToShared (LinkState.junctionTo b) then
      { res := Except.ok sharedConfigPath, shared := shared0,
        link := LinkState.junctionTo b, ops := [] }
    else if is_reparse_point plat (LinkState.junctionTo b) then
      finishJunction plat shared0 [COp.removeDirLink]
    else
      finishJunction plat (copyEntries [] shared0).1 [COp.copyToShared, COp.removeDirAll]
  | LinkState.realDir es =>
    finishJunction plat (copyEntries es shared0).1 [COp.copyToShared, COp.removeDirAll]
  | LinkState.plainFile =>
    finishJunction plat shared0 [COp.removeFile]

-- ===== progress events =====

inductive Event where
  | progress (step : Nat) (stepName : String)
  | finished
  | error (message : String)
deriving Repr, DecidableEq

def isTerminal : Event → Bool
  | Event.finished => true
  | Event.error _ => true
  | Event.progress _ _ => false

/-- Number of terminal (Finished or Error) events in a trace. -/
def terminalCount (evs : List Event) : Nat := (evs.filter isTerminal).length

-- ===== sync pipeline =====

/-- Environment of one run of sync_latest_install_from_manifest: the outcomes
of its external collaborators, in program order. -/
structure SyncEnv where
  /-- latest_installed_version_dir: greatest installed `v<N>`, if any. -/
  latestInstalled : Option Nat
  /-- ModsConfig::fetch_manifest: the remote manifest version counter (the
  mods list plays no role in the properties settled here). -/
  fetchManifest : Except String Nat
  /-- read_manifest_state: whether reading/parsing manifest_state.json works. -/
  readStateOk : Except String Unit
  /-- Content of manifest_state.json before the run (none = absent, read as 0). -/
  stored : Option Nat
  /-- Step 1 (Sync Config): zip download, temp write, junction, extraction. -/
  syncConfig : Except String Unit
  /-- Step 2 (Sync Mods): mods::install_mods_with_progress. -/
  syncMods : Except String Unit
  /-- write_manifest_state at the end of the sync block. -/
  writeState : Except String Unit

structure SyncOut where
  res : Except String Unit
  events : List Event
  stored : Option Nat
deriving Repr

/-- sync_latest_install_from_manifest (installer.rs lines 221-417). Early
returns (no installed version; manifest fetch or state read failure; counter
already equal) happen before the sync block and emit nothing; inside the
block, the first failure stops it and the tail of the function emits exactly
one Error, while full success writes the new counter and emits Finished. -/
def sync_latest_install_from_manifest (env : SyncEnv) : SyncOut :=
  match env.latestInstalled with
  | none => { res := Except.ok (), events := [], stored := env.stored }
  | some _gameVersion =>
    match env.fetchManifest with
    | Except.error e => { res := Except.error e, events := [], stored := env.stored }
    | Except.ok remoteManifestVersion =>
      match env.readStateOk with
      | Except.error e => { res := Except.error e, events := [], stored := env.stored }
      | Except.ok _ =>
        if env.stored.getD 0 = remoteManifestVersion then
          { res := Except.ok (), events := [], stored := env.stored }
        else
          match env.syncConfig with
          | Except.error e =>
            { res := Except.error e,
              events := [Event.progress 1 "Sync Config", Event.error e],
              stored := env.stored }
          | Except.ok _ =>
            match env.syncMods with
            | Except.error e =>
              { res := Except.error e,
                events := [Event.progress 1 "Sync Config", Event.progress 2 "Sync Mods",
                           Event.error e],
                stored := env.stored }
            | Except.ok _ =>
              match env.writeState with
              | Except.error e =>
                { res := Except.error e,
                  events := [Event.progress 1 "Sync Config", Event.progress 2 "Sync Mods",
                             Event.progress 2 "Sync Mods", Event.error e],
                  stored := env.stored }
              | Except.ok _ =>
                { res := Except.ok (),
                  events := [Event.progress 1 "Sync Config", Event.progress 2 "Sync Mods",
                             Event.progress 2 "Sync Mods", Event.finished],
                  stored := some remoteManifestVersion }

-- ===== install pipeline =====

/-- `manifests.get(&version)` on the fetched per-version depot map. -/
def lookupManifestId (manifests : List (Nat × String)) (version : Nat) : Option String :=
  match manifests with
  | [] => none
  | (k, v) :: rest => if k = version then some v else lookupManifestId rest version

/-- The magic-bytes sanity check (installer.rs lines 616-626): read up to 4
bytes of the downloaded archive; reject when fewer than 2 bytes were read or
the first two are not 'P','K' (bytes 80 and 75). -/
def checkZipHeader (bytes : List Nat) : Bool :=
  let header := bytes.take 4
  !(decide (header.length < 2) || decide (header.getD 0 0 ≠ 80) || decide (header.getD 1 0 ≠ 75))

/-- Environment of one run of download_and_setup: the outcomes of its
external collaborators, in program order. -/
structure InstallEnv where
  /-- downloader::install_downloader. -/
  installDownloader : Except String Unit
  /-- downloader::DepotDownloader::new. -/
  newDownloader : Except String Unit
  /-- get_login_state().is_logged_in. -/
  isLoggedIn : Bool
  /-- ModsConfig::fetch_manifest: the per-game-version depot manifest ids. -/
  fetchManifest : Except String (List (Nat × String))
  /-- versions/v{version} existed before the run. -/
  preExistingVersionDir : Bool
  /-- downloader.download_depot. -/
  downloadDepot : Except String Unit
  /-- The BepInExPack HTTP download: the bytes streamed into the temp zip. -/
  loaderResponse : Except String (List Nat)
  /-- zip_utils::extract_thunderstore_package_with_progress. -/
  extractLoader : Except String Unit
  /-- ensure_config_junction in step 4. -/
  configJunction : Except String Unit
  /-- mods::install_mods_with_progress in step 5. -/
  installMods : Except String Unit

structure InstallOut where
  res : Except String Bool
  events : List Event
  /-- The pre-existing versions/v{version} directory was deleted (and the
  path recreated empty) during step 2. -/
  versionDirReset : Bool
  /-- The downloaded loader archive was deleted by the magic-bytes check. -/
  loaderZipRemoved : Bool
  /-- Extraction of the loader archive was started. -/
  extractionAttempted : Bool
deriving Repr

/-- Body of download_and_setup (installer.rs lines 420-799): the `res` block,
before the final emit_error wrapper. Per-chunk and per-file progress records
inside steps 3 and 5 are collapsed into the surrounding step records; none of
them is terminal. -/
def download_and_setup_inner (env : InstallEnv) (version : Nat) : InstallOut :=
  match env.installDownloader with
  | Except.error e =>
    { res := Except.error ("Failed to install DepotDownloader: " ++ e),
      events := [], versionDirReset := false, loaderZipRemoved := false,
      extractionAttempted := false }
  | Except.ok _ =>
    match env.newDownloader with
    | Except.error e =>
      { res := Except.error e, events := [Event.progress 1 "Login Check"],
        versionDirReset := false, loaderZipRemoved := false, extractionAttempted := false }
    | Except.ok _ =>
      if !env.isLoggedIn then
        { res := Except.error "Not logged in to Steam. Please login first.",
          events := [Event.progress 1 "Login Check"],
          versionDirReset := false, loaderZipRemoved := false, extractionAttempted := false }
      else
        match env.fetchManifest with
        | Except.error e =>
          { res := Except.error e,
            events := [Event.progress 1 "Login Check", Event.progress 1 "Login Check"],
            versionDirReset := false, loaderZipRemoved := false, extractionAttempted := false }
        | Except.ok manifests =>
          -- Step 2: the version directory is purged and recreated first,
          -- then the depot manifest id is looked up.
          let evs2 := [Event.progress 1 "Login Check", Event.progress 1 "Login Check",
                       Event.progress 2 "Download Game"]
          let reset := env.preExistingVersionDir
          match lookupManifestId manifests version with
          | none =>
            { res := Except.error ("No depot manifest id for game version "
                ++ toString version ++ " in remote manifest."),
              events := evs2, versionDirReset := reset, loaderZipRemoved := false,
              extractionAttempted := false }
          | some _manifestId =>
            match env.downloadDepot with
            | Except.error e =>
              { res := Except.error e, events := evs2, versionDirReset := reset,
                loaderZipRemoved := false, extractionAttempted := false }
            | Except.ok _ =>
              let evs3 := evs2 ++ [Event.progress 2 "Download Game",
                                   Event.progress 3 "Install BepInEx"]
              match env.loaderResponse with
              | Except.error e =>
                { res := Except.error e, events := evs3, versionDirReset := reset,
                  loaderZipRemoved := false, extractionAttempted := false }
              | Except.ok bytes =>
                if !checkZipHeader bytes then
                  { res := Except.error
                      "BepInExPack download is not a valid zip (got non-zip response). Please retry.",
                    events := evs3, versionDirReset := reset, loaderZipRemoved := true,
                    extractionAttempted := false }
                else
                  match env.extractLoader with
                  | Except.error e =>
                    { res := Except.error e, events := evs3, versionDirReset := reset,
                      loaderZipRemoved := false, extractionAttempted := true }
                  | Except.ok _ =>
                    let evs4 := evs3 ++ [Event.progress 3 "Install BepInEx",
                                         Event.progress 4 "Install Config"]
                    match env.configJunction with
                    | Except.error e =>
                      { res := Except.error e, events := evs4, versionDirReset := reset,
                        loaderZipRemoved := false, extractionAttempted := true }
                    | Except.ok _ =>
                      let evs5 := evs4 ++ [Event.progress 4 "Install Config",
                                           Event.progress 5 "Install Mods"]
                      match env.installMods with
                      | Except.error e =>
                        { res := Except.error e, events := evs5, versionDirReset := reset,
                          loaderZipRemoved := false, extractionAttempted := true }
                      | Except.ok _ =>
                        { res := Except.ok true,
                          events := evs5 ++ [Event.progress 5 "Install Mods", Event.finished],
                          versionDirReset := reset, loaderZipRemoved := false,
                          extractionAttempted := true }

/-- download_and_setup with its final wrapper (installer.rs lines 800-813):
one emit_error exactly when the block returned Err. -/
def download_and_setup (env : InstallEnv) (version : Nat) : InstallOut :=
  let o := download_and_setup_inner env version
  match o.res with
  | Except.error m => { o with events := o.events ++ [Event.error m] }
  | Except.ok _ => o


-- Concrete environments used by counterexamples and witnesses below.

/-- A sync run on a machine with no installed version: the pipeline is a
silent no-op. -/
def envSyncNoInstall : SyncEnv :=
  { latestInstalled := none, fetchManifest := Except.ok 1,
    readStateOk := Except.ok (), stored := none,
    syncConfig := Except.ok (), syncMods := Except.ok (),
    writeState := Except.ok () }

/-- A sync run whose gating passes (local counter 2, remote 7) and whose
first step (Sync Config) fails. -/
def envSyncStep1Fail : SyncEnv :=
  { latestInstalled := some 3, fetchManifest := Except.ok 7,
    readStateOk := Except.ok (), stored := some 2,
    syncConfig := Except.error "config download failed",
    syncMods := Except.ok (), writeState := Except.ok () }

/-- An install run where every collaborator succeeds. -/
def envInstallOk : InstallEnv :=
  { installDownloader := Except.ok (), newDownloader := Except.ok (),
    isLoggedIn := true, fetchManifest := Except.ok [(1, "mid1")],
    preExistingVersionDir := false, downloadDepot := Except.ok (),
    loaderResponse := Except.ok [80, 75, 3, 4], extractLoader := Except.ok (),
    configJunction := Except.ok (), installMods := Except.ok () }

/-- An install run whose fetched manifest has no depot id for any version,
on a machine where versions/v1 already exists. -/
def envInstallNoManifest : InstallEnv :=
  { installDownloader := Except.ok (), newDownloader := Except.ok (),
    isLoggedIn := true, fetchManifest := Except.ok [],
    preExistingVersionDir := true, downloadDepot := Except.ok (),
    loaderResponse := Except.ok [80, 75, 3, 4], extractLoader := Except.ok (),
    configJunction := Except.ok (), installMods := Except.ok () }

/-- An install run whose loader download returns an HTML body ("<h" = bytes
60, 104) instead of a zip archive. -/
def envInstallBadZip : InstallEnv :=
  { installDownloader := Except.ok (), newDownloader := Except.ok (),
    isLoggedIn := true, fetchManifest := Except.ok [(1, "mid1")],
    preExistingVersionDir := false, downloadDepot := Except.ok (),
    loaderResponse := Except.ok [60, 104], extractLoader := Except.ok (),
    configJunction := Except.ok (), installMods := Except.ok () }

-- ---------------------------------------------------------------------------
-- Theorems
-- ---------------------------------------------------------------------------

theorem rangeLast_none_iff (gv : Nat) (l : List (Nat × String)) :
    versionConfigRangeLast l gv = none ↔ ∀ q ∈ l, gv < q.1 := by
  induction l with
  | nil => simp [versionConfigRangeLast]
  | cons e t ih =>
    simp only [versionConfigRangeLast]
    cases h : versionConfigRangeLast t gv with
    | some r =>
      have ht : ¬ ∀ q ∈ t, gv < q.1 := fun hall => by
        rw [ih.mpr hall] at h; cases h
      constructor
      · intro hc; cases hc
      · intro hall
        exact absurd (fun q hq => hall q (List.mem_cons_of_mem e hq)) ht
    | none =>
      have ht : ∀ q ∈ t, gv < q.1 := ih.mp h
      by_cases he : e.1 ≤ gv
      · simp only [he, if_true]
        constructor
        · intro hc; cases hc
        · intro hall
          have := hall e (List.mem_cons_self e t)
          omega
      · simp only [he, if_false]
        constructor
        · intro _ q hq
          rcases List.mem_cons.mp hq with rfl | hq'
          · omega
          · exact ht q hq'
        · intro _; trivial

theorem rangeLast_some_iff (gv : Nat) : ∀ (l : List (Nat × String)), AscKeys l →
    ∀ (k : Nat) (v : String),
    versionConfigRangeLast l gv = some (k, v) ↔
      ((k, v) ∈ l ∧ k ≤ gv ∧ ∀ q ∈ l, q.1 ≤ gv → q.1 ≤ k) := by
  intro l
  induction l with
  | nil => intro _ k v; simp [versionConfigRangeLast]
  | cons e t ih =>
    intro hs k v
    obtain ⟨he, ht⟩ := List.pairwise_cons.mp hs
    simp only [versionConfigRangeLast]
    cases h : versionConfigRangeLast t gv with
    | some r =>
      obtain ⟨rk, rv⟩ := r
      have hr := (ih ht rk rv).mp h
      constructor
      · intro hc
        injection hc with hc'
        injection hc' with h1 h2
        subst h1; subst h2
        refine ⟨List.mem_cons_of_mem e hr.1, hr.2.1, ?_⟩
        intro q hq hqle
        rcases List.mem_cons.mp hq with rfl | hq'
        · exact le_of_lt (he _ hr.1)
        · exact hr.2.2 q hq' hqle
      · rintro ⟨hmem, hkle, hdom⟩
        rcases List.mem_cons.mp hmem with heq | hmem'
        · exfalso
          have h1 : rk ≤ k := hdom (rk, rv) (List.mem_cons_of_mem e hr.1) hr.2.1
          have h2 : e.1 < rk := he _ hr.1
          have h3 : k = e.1 := by rw [← heq]
          omega
        · have := (ih ht k v).mpr
            ⟨hmem', hkle, fun q hq hqle => hdom q (List.mem_cons_of_mem e hq) hqle⟩
          rw [this] at h
          injection h with h'
          rw [h']
    | none =>
      have ht' : ∀ q ∈ t, gv < q.1 := (rangeLast_none_iff gv t).mp h
      by_cases hegv : e.1 ≤ gv
      · simp only [hegv, if_true]
        constructor
        · intro hc
          injection hc with hc'
          subst hc'
          refine ⟨List.mem_cons_self _ t, hegv, ?_⟩
          intro q hq hqle
          rcases List.mem_cons.mp hq with rfl | hq'
          · exact le_refl _
          · exact absurd hqle (by have := ht' q hq'; omega)
        · rintro ⟨hmem, hkle, _⟩
          rcases List.mem_cons.mp hmem with heq | hmem'
          · rw [heq]
          · exact absurd hkle (by have := ht' _ hmem'; omega)
      · simp only [hegv, if_false]
        constructor
        · intro hc; cases hc
        · rintro ⟨hmem, hkle, _⟩
          rcases List.mem_cons.mp hmem with heq | hmem'
          · refine absurd hkle ?_
            have : k = e.1 := by rw [← heq]
            omega
          · exact absurd hkle (by have := ht' _ hmem'; omega)

/-- C1 counterexample: with version_config = {0 ↦ "0.0.0 "} (trailing space)
and game version 0, the greatest key ≤ 0 exists and maps to "0.0.0 ", which is
not equal to the literal sentinel "0.0.0", yet pinned_version_for returns
none: the code compares the stored value after trimming whitespace. -/
theorem C1_counterexample :
    pinned_version_for [(0, "0.0.0 ")] 0 = none ∧
    versionConfigRangeLast [(0, "0.0.0 ")] 0 = some (0, "0.0.0 ") ∧
    ("0.0.0 " : String) ≠ "0.0.0" := by decide

/-- C1 (amended): for every version_config with strictly ascending keys (the
BTreeMap iteration invariant) and every game version v, pinned_version_for
returns some p exactly when some key is ≤ v, the greatest such key maps to p,
and the whitespace-trimmed p is not the sentinel "0.0.0"; it returns none
exactly when no key is ≤ v or the value at the greatest key ≤ v trims to
"0.0.0". With version_config = {56 ↦ "1.0.1", 73 ↦ "1.1.1"}, the results at
55, 56, 72, 73, 999 are none, "1.0.1", "1.0.1", "1.1.1", "1.1.1". -/
theorem C1_pinned_version_for (vc : List (Nat × String)) (hs : AscKeys vc) (gv : Nat) :
    (∀ p : String, pinned_version_for vc gv = some p ↔
        ((∃ k, (k, p) ∈ vc ∧ k ≤ gv ∧ ∀ q ∈ vc, q.1 ≤ gv → q.1 ≤ k) ∧ strTrim p ≠ "0.0.0"))
    ∧ (pinned_version_for vc gv = none ↔
        ((∀ q ∈ vc, gv < q.1) ∨
          ∃ k v, (k, v) ∈ vc ∧ k ≤ gv ∧ (∀ q ∈ vc, q.1 ≤ gv → q.1 ≤ k) ∧ strTrim v = "0.0.0"))
    ∧ (pinned_version_for [(56, "1.0.1"), (73, "1.1.1")] 55 = none
       ∧ pinned_version_for [(56, "1.0.1"), (73, "1.1.1")] 56 = some "1.0.1"
       ∧ pinned_version_for [(56, "1.0.1"), (73, "1.1.1")] 72 = some "1.0.1"
       ∧ pinned_version_for [(56, "1.0.1"), (73, "1.1.1")] 73 = some "1.1.1"
       ∧ pinned_version_for [(56, "1.0.1"), (73, "1.1.1")] 999 = some "1.1.1") := by
  refine ⟨?_, ?_, by decide⟩
  · intro p
    unfold pinned_version_for
    cases h : versionConfigRangeLast vc gv with
    | none =>
      simp only [reduceCtorEq, false_iff]
      rintro ⟨⟨k, hmem, hkle, _⟩, _⟩
      have := (rangeLast_none_iff gv vc).mp h _ hmem
      omega
    | some e =>
      obtain ⟨k0, v0⟩ := e
      have h0 := (rangeLast_some_iff gv vc hs k0 v0).mp h
      show (if strTrim v0 = "0.0.0" then none else some v0) = some p ↔ _
      by_cases hst : strTrim v0 = "0.0.0"
      · rw [if_pos hst]
        simp only [reduceCtorEq, false_iff]
        rintro ⟨⟨k, hmem, hkle, hdom⟩, hptrim⟩
        have := (rangeLast_some_iff gv vc hs k p).mpr ⟨hmem, hkle, hdom⟩
        rw [this] at h
        injection h with h'
        injection h' with h1 h2
        exact hptrim (h2 ▸ hst)
      · rw [if_neg hst]
        simp only [Option.some.injEq]
        constructor
        · intro hv
          subst hv
          exact ⟨⟨k0, h0.1, h0.2.1, h0.2.2⟩, hst⟩
        · rintro ⟨⟨k, hmem, hkle, hdom⟩, _⟩
          have := (rangeLast_some_iff gv vc hs k p).mpr ⟨hmem, hkle, hdom⟩
          rw [this] at h
          injection h with h'
          injection h' with h1 h2
          exact h2.symm
  · unfold pinned_version_for
    cases h : versionConfigRangeLast vc gv with
    | none =>
      simp only [true_iff]
      exact Or.inl ((rangeLast_none_iff gv vc).mp h)
    | some e =>
      obtain ⟨k0, v0⟩ := e
      have h0 := (rangeLast_some_iff gv vc hs k0 v0).mp h
      show (if strTrim v0 = "0.0.0" then none else some v0) = none ↔ _
      by_cases hst : strTrim v0 = "0.0.0"
      · rw [if_pos hst]
        simp only [true_iff]
        exact Or.inr ⟨k0, v0, h0.1, h0.2.1, h0.2.2, hst⟩
      · rw [if_neg hst]
        simp only [reduceCtorEq, false_iff]
        rintro (hall | ⟨k, v, hmem, hkle, hdom, hvtrim⟩)
        · have := hall _ h0.1
          have := h0.2.1
          omega
        · have := (rangeLast_some_iff gv vc hs k v).mpr ⟨hmem, hkle, hdom⟩
          rw [this] at h
          injection h with h'
          injection h' with h1 h2
          exact hst (h2 ▸ hvtrim)

/-- Witness for C1: the amended characterization applied at the concrete
version_config {56 ↦ "1.0.1", 73 ↦ "1.1.1"} and game version 73. -/
theorem C1_witness :
    AscKeys [(56, "1.0.1"), (73, "1.1.1")] ∧
    (pinned_version_for [(56, "1.0.1"), (73, "1.1.1")] 73 = some "1.1.1" ↔
      ((∃ k, (k, "1.1.1") ∈ [(56, "1.0.1"), (73, "1.1.1")] ∧ k ≤ 73 ∧
          ∀ q ∈ [(56, "1.0.1"), (73, "1.1.1")], q.1 ≤ 73 → q.1 ≤ k) ∧
        strTrim "1.1.1" ≠ "0.0.0")) :=
  ⟨by decide, (C1_pinned_version_for _ (by decide) 73).1 "1.1.1"⟩

/-- C7: is_compatible m v is true exactly when the entry is enabled, v is at
least low_cap when that is set, and at most high_cap when that is set; in
particular it is false whenever enabled is false, regardless of the bounds. -/
theorem C7_is_compatible (m : ModEntry) (gv : Nat) :
    (is_compatible m gv = true ↔
      (m.enabled = true
        ∧ (m.low_cap = none ∨ ∃ lo, m.low_cap = some lo ∧ lo ≤ gv)
        ∧ (m.high_cap = none ∨ ∃ hi, m.high_cap = some hi ∧ gv ≤ hi)))
    ∧ (m.enabled = false → is_compatible m gv = false) := by
  obtain ⟨name, dev, en, lo, hi, vc⟩ := m
  cases en <;> cases lo <;> cases hi <;>
    simp only [is_compatible] <;> simp

theorem lookupEntry_append_left {n : String} {d : List (String × FsTree)} {t : FsTree}
    (h : lookupEntry n d = some t) (l : List (String × FsTree)) :
    lookupEntry n (d ++ l) = some t := by
  induction d with
  | nil => simp [lookupEntry] at h
  | cons e rest ih =>
    obtain ⟨m, u⟩ := e
    by_cases hm : m = n
    · simp [lookupEntry, hm] at h ⊢; exact h
    · simp [lookupEntry, hm] at h ⊢; exact ih h

theorem lookupEntry_append_right {n : String} {d : List (String × FsTree)}
    (h : lookupEntry n d = none) (u : FsTree) :
    lookupEntry n (d ++ [(n, u)]) = some u := by
  induction d with
  | nil => simp [lookupEntry]
  | cons e rest ih =>
    obtain ⟨m, v⟩ := e
    by_cases hm : m = n
    · simp [lookupEntry, hm] at h
    · simp [lookupEntry, hm] at h ⊢; exact ih h

theorem lookupEntry_update_self (n : String) (v : FsTree) (d : List (String × FsTree)) :
    lookupEntry n (updateEntry n v d) = some v := by
  induction d with
  | nil => simp [lookupEntry, updateEntry]
  | cons e rest ih =>
    obtain ⟨m, u⟩ := e
    by_cases hm : m = n
    · simp [lookupEntry, updateEntry, hm]
    · simp [lookupEntry, updateEntry, hm]; exact ih

theorem lookupEntry_update_ne {m n : String} (hne : m ≠ n) (v : FsTree)
    (d : List (String × FsTree)) :
    lookupEntry m (updateEntry n v d) = lookupEntry m d := by
  induction d with
  | nil =>
    simp only [updateEntry, lookupEntry]
    rw [if_neg (fun h => hne h.symm)]
  | cons e rest ih =>
    obtain ⟨k, u⟩ := e
    simp only [updateEntry, lookupEntry]
    by_cases hk : k = n
    · rw [if_pos hk]
      have hkm : ¬ k = m := by rw [hk]; exact fun h => hne h.symm
      simp only [lookupEntry]
      rw [if_neg hkm, if_neg hkm]
    · rw [if_neg hk]
      simp only [lookupEntry]
      by_cases hk2 : k = m
      · rw [if_pos hk2, if_pos hk2]
      · rw [if_neg hk2, if_neg hk2]
        exact ih

theorem getPath_append_file {d : List (String × FsTree)} {p : List String} {c : String}
    (h : FsTree.getPath (FsTree.dir d) p = some (FsTree.file c)) (e : String × FsTree) :
    FsTree.getPath (FsTree.dir (d ++ [e])) p = some (FsTree.file c) := by
  cases p with
  | nil => simp [FsTree.getPath] at h
  | cons m p' =>
    simp only [FsTree.getPath] at h ⊢
    cases hl : lookupEntry m d with
    | none => rw [hl] at h; cases h
    | some t =>
      rw [hl] at h
      rw [lookupEntry_append_left hl]
      exact h

theorem getPath_update_file {n : String} {d : List (String × FsTree)}
    {dSub d2 : List (String × FsTree)}
    (hn : lookupEntry n d = some (FsTree.dir dSub))
    (hsub : ∀ (p : List String) (c : String),
      FsTree.getPath (FsTree.dir dSub) p = some (FsTree.file c) →
      FsTree.getPath (FsTree.dir d2) p = some (FsTree.file c))
    {p : List String} {c : String}
    (h : FsTree.getPath (FsTree.dir d) p = some (FsTree.file c)) :
    FsTree.getPath (FsTree.dir (updateEntry n (FsTree.dir d2) d)) p = some (FsTree.file c) := by
  cases p with
  | nil => simp [FsTree.getPath] at h
  | cons m p' =>
    simp only [FsTree.getPath] at h ⊢
    by_cases hm : m = n
    · subst hm
      rw [hn] at h
      rw [lookupEntry_update_self]
      exact hsub p' c h
    · rw [lookupEntry_update_ne hm]
      exact h

theorem getPath_update_new {n : String} {d : List (String × FsTree)} {v : FsTree}
    (hn : lookupEntry n d = none)
    {p : List String} {c : String}
    (h : FsTree.getPath (FsTree.dir d) p = some (FsTree.file c)) :
    FsTree.getPath (FsTree.dir (updateEntry n v d)) p = some (FsTree.file c) := by
  cases p with
  | nil => simp [FsTree.getPath] at h
  | cons m p' =>
    simp only [FsTree.getPath] at h ⊢
    by_cases hm : m = n
    · subst hm
      rw [hn] at h
      cases h
    · rw [lookupEntry_update_ne hm]
      exact h

theorem copyEntries_preserves_files (src d : List (String × FsTree)) :
    ∀ (p : List String) (c : String),
      FsTree.getPath (FsTree.dir d) p = some (FsTree.file c) →
      FsTree.getPath (FsTree.dir (copyEntries src d).1) p = some (FsTree.file c) := by
  induction src, d using copyEntries.induct with
  | case1 d =>
    intro p c h
    simpa [copyEntries] using h
  | case2 n c0 rest d val hx ih =>
    intro p c h
    simp only [copyEntries, hx]
    exact ih p c h
  | case3 n c0 rest d hx ih =>
    intro p c h
    simp only [copyEntries, hx]
    exact ih p c (getPath_append_file h (n, FsTree.file c0))
  | case4 n srcSub rest d c0 hx =>
    intro p c h
    simp only [copyEntries, hx]
    exact h
  | case5 n srcSub rest d dSub hx d2 e0 heq ih =>
    intro p c h
    simp only [copyEntries, hx, heq]
    refine getPath_update_file hx (fun p' c' h' => ?_) h
    have t := ih p' c' h'
    rw [heq] at t
    exact t
  | case6 n srcSub rest d dSub hx d2 heq ihsub ih =>
    intro p c h
    simp only [copyEntries, hx, heq]
    refine ih p c (getPath_update_file hx (fun p' c' h' => ?_) h)
    have t := ihsub p' c' h'
    rw [heq] at t
    exact t
  | case7 n srcSub rest d hx d2 e0 heq ih =>
    intro p c h
    simp only [copyEntries, hx, heq]
    exact getPath_update_new hx h
  | case8 n srcSub rest d hx d2 heq ihsub ih =>
    intro p c h
    simp only [copyEntries, hx, heq]
    exact ih p c (getPath_update_new hx h)

theorem lookupEntry_append_ne {m n : String} (hne : n ≠ m) (u : FsTree)
    (d : List (String × FsTree)) :
    lookupEntry m (d ++ [(n, u)]) = lookupEntry m d := by
  induction d with
  | nil => simp [lookupEntry, hne]
  | cons e rest ih =>
    obtain ⟨k, v⟩ := e
    simp only [List.cons_append, lookupEntry]
    by_cases hk : k = m
    · rw [if_pos hk, if_pos hk]
    · rw [if_neg hk, if_neg hk]
      exact ih

theorem copyEntries_copies_new_files (src d : List (String × FsTree)) :
    ∀ (p : List String) (c : String),
      (copyEntries src d).2 = none →
      FsTree.getPath (FsTree.dir src) p = some (FsTree.file c) →
      FsTree.getPath (FsTree.dir d) p = none →
      FsTree.getPath (FsTree.dir (copyEntries src d).1) p = some (FsTree.file c) := by
  induction src, d using copyEntries.induct with
  | case1 d =>
    intro p c _ hsrc _
    cases p with
    | nil => cases hsrc
    | cons m p' => simp [FsTree.getPath, lookupEntry] at hsrc
  | case2 n c0 rest d val hx ih =>
    intro p c hsnd hsrc hdst
    simp only [copyEntries, hx] at hsnd ⊢
    cases p with
    | nil => cases hsrc
    | cons m p' =>
      simp only [FsTree.getPath, lookupEntry] at hsrc
      by_cases hm : n = m
      · rw [if_pos hm] at hsrc
        cases p' with
        | nil =>
          exfalso
          simp only [FsTree.getPath] at hdst
          rw [← hm, hx] at hdst
          simp [FsTree.getPath] at hdst
        | cons a b => simp [FsTree.getPath] at hsrc
      · rw [if_neg hm] at hsrc
        exact ih (m :: p') c hsnd (by simp only [FsTree.getPath]; exact hsrc) hdst
  | case3 n c0 rest d hx ih =>
    intro p c hsnd hsrc hdst
    simp only [copyEntries, hx] at hsnd ⊢
    cases p with
    | nil => cases hsrc
    | cons m p' =>
      simp only [FsTree.getPath, lookupEntry] at hsrc
      by_cases hm : n = m
      · rw [if_pos hm] at hsrc
        cases p' with
        | nil =>
          injection hsrc with hc
          injection hc with hc'
          subst hc'
          subst hm
          apply copyEntries_preserves_files
          simp only [FsTree.getPath]
          rw [lookupEntry_append_right hx]
        | cons a b => simp [FsTree.getPath] at hsrc
      · rw [if_neg hm] at hsrc
        refine ih (m :: p') c hsnd (by simp only [FsTree.getPath]; exact hsrc) ?_
        simp only [FsTree.getPath] at hdst ⊢
        rw [lookupEntry_append_ne hm]
        exact hdst
  | case4 n srcSub rest d c0 hx =>
    intro p c hsnd hsrc hdst
    simp only [copyEntries, hx] at hsnd
    cases hsnd
  | case5 n srcSub rest d dSub hx d2 e0 heq ih =>
    intro p c hsnd hsrc hdst
    simp only [copyEntries, hx, heq] at hsnd
    cases hsnd
  | case6 n srcSub rest d dSub hx d2 heq ihsub ih =>
    intro p c hsnd hsrc hdst
    simp only [copyEntries, hx, heq] at hsnd ⊢
    cases p with
    | nil => cases hsrc
    | cons m p' =>
      simp only [FsTree.getPath, lookupEntry] at hsrc
      by_cases hm : n = m
      · rw [if_pos hm] at hsrc
        subst hm
        have hdstSub : FsTree.getPath (FsTree.dir dSub) p' = none := by
          simp only [FsTree.getPath] at hdst
          rw [hx] at hdst
          exact hdst
        have hinner := ihsub p' c (by rw [heq]) hsrc hdstSub
        rw [heq] at hinner
        apply copyEntries_preserves_files
        simp only [FsTree.getPath]
        rw [lookupEntry_update_self]
        exact hinner
      · rw [if_neg hm] at hsrc
        refine ih (m :: p') c hsnd (by simp only [FsTree.getPath]; exact hsrc) ?_
        simp only [FsTree.getPath] at hdst ⊢
        rw [lookupEntry_update_ne (fun h => hm h.symm)]
        exact hdst
  | case7 n srcSub rest d hx d2 e0 heq ih =>
    intro p c hsnd hsrc hdst
    simp only [copyEntries, hx, heq] at hsnd
    cases hsnd
  | case8 n srcSub rest d hx d2 heq ihsub ih =>
    intro p c hsnd hsrc hdst
    simp only [copyEntries, hx, heq] at hsnd ⊢
    cases p with
    | nil => cases hsrc
    | cons m p' =>
      simp only [FsTree.getPath, lookupEntry] at hsrc
      by_cases hm : n = m
      · rw [if_pos hm] at hsrc
        subst hm
        have hempty : FsTree.getPath (FsTree.dir []) p' = none := by
          cases p' with
          | nil => cases hsrc
          | cons a b => simp [FsTree.getPath, lookupEntry]
        have hinner := ihsub p' c (by rw [heq]) hsrc hempty
        rw [heq] at hinner
        apply copyEntries_preserves_files
        simp only [FsTree.getPath]
        rw [lookupEntry_update_self]
        exact hinner
      · rw [if_neg hm] at hsrc
        refine ih (m :: p') c hsnd (by simp only [FsTree.getPath]; exact hsrc) ?_
        simp only [FsTree.getPath] at hdst ⊢
        rw [lookupEntry_update_ne (fun h => hm h.symm)]
        exact hdst

/-- C5: after copy_dir_add_only (1) every file already present at a
destination path keeps its prior content, even when the walk stops at an
error; (2) on a successful walk, every source file whose destination path was
absent exists afterwards with the source content; (3) the recursion descends
into a source subdirectory even when the destination subdirectory pre-exists
(a nested new file is still copied); (4) the call is a no-op when src and dst
resolve to the same path. -/
theorem C5_copy_dir_add_only :
    (∀ (src d : List (String × FsTree)) (p : List String) (c : String),
        FsTree.getPath (FsTree.dir d) p = some (FsTree.file c) →
        FsTree.getPath (FsTree.dir (copyEntries src d).1) p = some (FsTree.file c))
    ∧ (∀ (src d : List (String × FsTree)) (p : List String) (c : String),
        (copyEntries src d).2 = none →
        FsTree.getPath (FsTree.dir src) p = some (FsTree.file c) →
        FsTree.getPath (FsTree.dir d) p = none →
        FsTree.getPath (FsTree.dir (copyEntries src d).1) p = some (FsTree.file c))
    ∧ (∀ (n : String) (srcSub rest d dSub : List (String × FsTree))
          (p : List String) (c : String),
        lookupEntry n d = some (FsTree.dir dSub) →
        (copyEntries ((n, FsTree.dir srcSub) :: rest) d).2 = none →
        FsTree.getPath (FsTree.dir srcSub) p = some (FsTree.file c) →
        FsTree.getPath (FsTree.dir dSub) p = none →
        FsTree.getPath (FsTree.dir (copyEntries ((n, FsTree.dir srcSub) :: rest) d).1) (n :: p)
          = some (FsTree.file c))
    ∧ (∀ (fs : FsTree) (p : List String), copy_dir_add_only fs p p = (fs, none)) := by
  refine ⟨copyEntries_preserves_files, copyEntries_copies_new_files, ?_, ?_⟩
  · intro n srcSub rest d dSub p c hn hsnd hsrc hdst
    apply copyEntries_copies_new_files _ _ (n :: p) c hsnd
    · simpa [FsTree.getPath, lookupEntry] using hsrc
    · simp only [FsTree.getPath]
      rw [hn]
      exact hdst
  · intro fs p
    simp [copy_dir_add_only]

/-- Witness for C5, at the spec's example: dest/a.txt = "OLD" is kept while
src/a.txt = "NEW" is skipped; dest/b.txt is absent so src/b.txt = "X" is
copied; and the same-path call is a no-op. -/
theorem C5_witness :
    FsTree.getPath
        (FsTree.dir (copyEntries
          [("a.txt", FsTree.file "NEW"), ("b.txt", FsTree.file "X")]
          [("a.txt", FsTree.file "OLD")]).1) ["a.txt"] = some (FsTree.file "OLD")
    ∧ FsTree.getPath
        (FsTree.dir (copyEntries
          [("a.txt", FsTree.file "NEW"), ("b.txt", FsTree.file "X")]
          [("a.txt", FsTree.file "OLD")]).1) ["b.txt"] = some (FsTree.file "X")
    ∧ copy_dir_add_only (FsTree.dir []) ["x"] ["x"] = (FsTree.dir [], none) :=
  ⟨C5_copy_dir_add_only.1 _ _ _ _ (by simp [FsTree.getPath, lookupEntry]),
   C5_copy_dir_add_only.2.1 _ _ _ _
     (by simp [copyEntries, lookupEntry])
     (by simp [FsTree.getPath, lookupEntry])
     (by simp [FsTree.getPath, lookupEntry]),
   C5_copy_dir_add_only.2.2.2 _ _⟩

theorem download_and_setup_inner_terminal (env : InstallEnv) (version : Nat) :
    terminalCount (download_and_setup_inner env version).events
      = match (download_and_setup_inner env version).res with
        | Except.ok _ => 1
        | Except.error _ => 0 := by
  obtain ⟨i1, i2, i3, i4, i5, i6, i7, i8, i9, i10⟩ := env
  unfold download_and_setup_inner
  cases i1 with
  | error e => simp [terminalCount, isTerminal]
  | ok u1 =>
  cases i2 with
  | error e => simp [terminalCount, isTerminal]
  | ok u2 =>
  cases i3 with
  | false => simp [terminalCount, isTerminal]
  | true =>
  cases i4 with
  | error e => simp [terminalCount, isTerminal]
  | ok manifests =>
  simp only [Bool.not_true, Bool.false_eq_true, if_false]
  cases hlk : lookupManifestId manifests version with
  | none => simp [terminalCount, isTerminal]
  | some mid =>
  cases i6 with
  | error e => simp [terminalCount, isTerminal]
  | ok u6 =>
  cases i7 with
  | error e => simp [terminalCount, isTerminal]
  | ok bytes =>
  by_cases hck : checkZipHeader bytes
  · simp only [hck, Bool.not_true, Bool.false_eq_true, if_false]
    cases i8 with
    | error e => simp [terminalCount, isTerminal]
    | ok u8 =>
    cases i9 with
    | error e => simp [terminalCount, isTerminal]
    | ok u9 =>
    cases i10 with
    | error e => simp [terminalCount, isTerminal]
    | ok u10 => simp [terminalCount, isTerminal]
  · simp only [Bool.not_eq_true] at hck
    simp [hck, terminalCount, isTerminal]

theorem terminalCount_append (a b : List Event) :
    terminalCount (a ++ b) = terminalCount a + terminalCount b := by
  simp [terminalCount, List.filter_append]

theorem download_and_setup_one_terminal (env : InstallEnv) (version : Nat) :
    terminalCount (download_and_setup env version).events = 1 := by
  have h := download_and_setup_inner_terminal env version
  unfold download_and_setup
  cases hres : (download_and_setup_inner env version).res with
  | ok b =>
    rw [hres] at h
    simpa [hres] using h
  | error m =>
    rw [hres] at h
    simp only [hres]
    rw [terminalCount_append, h]
    simp [terminalCount, isTerminal]

theorem sync_terminal_gated (env : SyncEnv) (v r : Nat)
    (h1 : env.latestInstalled = some v) (h2 : env.fetchManifest = Except.ok r)
    (h3 : env.readStateOk = Except.ok ()) (h4 : env.stored.getD 0 ≠ r) :
    terminalCount (sync_latest_install_from_manifest env).events = 1 := by
  unfold sync_latest_install_from_manifest
  rw [h1, h2, h3]
  simp only []
  rw [if_neg h4]
  cases env.syncConfig with
  | error e => simp [terminalCount, isTerminal]
  | ok _ =>
  cases env.syncMods with
  | error e => simp [terminalCount, isTerminal]
  | ok _ =>
  cases env.writeState with
  | error e => simp [terminalCount, isTerminal]
  | ok _ => simp [terminalCount, isTerminal]

theorem sync_terminal_early (env : SyncEnv)
    (h : env.latestInstalled = none
      ∨ (∃ e, env.fetchManifest = Except.error e)
      ∨ (∃ e, env.readStateOk = Except.error e)
      ∨ (∃ r, env.fetchManifest = Except.ok r ∧ env.readStateOk = Except.ok ()
          ∧ env.stored.getD 0 = r)) :
    terminalCount (sync_latest_install_from_manifest env).events = 0 := by
  unfold sync_latest_install_from_manifest
  rcases h with h | ⟨e, h⟩ | ⟨e, h⟩ | ⟨r, hf, hr, hs⟩
  · rw [h]; simp [terminalCount]
  · rw [h]
    cases hl : env.latestInstalled <;> simp [terminalCount]
  · rw [h]
    cases hl : env.latestInstalled <;> cases hf : env.fetchManifest <;> simp [terminalCount]
  · rw [hf, hr]
    cases hl : env.latestInstalled with
    | none => simp [terminalCount]
    | some v =>
      simp only []
      rw [if_pos hs]
      simp [terminalCount]

theorem sync_state_on_failure (env : SyncEnv) (v r : Nat)
    (h1 : env.latestInstalled = some v) (h2 : env.fetchManifest = Except.ok r)
    (h3 : env.readStateOk = Except.ok ()) (h4 : env.stored.getD 0 ≠ r)
    (h5 : (∃ e, env.syncConfig = Except.error e) ∨ (∃ e, env.syncMods = Except.error e)) :
    (sync_latest_install_from_manifest env).stored = env.stored
    ∧ ∃ e, (sync_latest_install_from_manifest env).res = Except.error e := by
  unfold sync_latest_install_from_manifest
  rw [h1, h2, h3]
  simp only []
  rw [if_neg h4]
  rcases h5 with ⟨e, h5⟩ | ⟨e, h5⟩
  · rw [h5]
    exact ⟨rfl, e, rfl⟩
  · cases hc : env.syncConfig with
    | error e2 => exact ⟨rfl, e2, rfl⟩
    | ok _ =>
      rw [h5]
      exact ⟨rfl, e, rfl⟩

theorem sync_state_written_only_on_success (env : SyncEnv)
    (hne : (sync_latest_install_from_manifest env).stored ≠ env.stored) :
    env.syncConfig = Except.ok () ∧ env.syncMods = Except.ok ()
    ∧ env.writeState = Except.ok ()
    ∧ ∃ r, env.fetchManifest = Except.ok r
        ∧ (sync_latest_install_from_manifest env).stored = some r := by
  unfold sync_latest_install_from_manifest at hne ⊢
  revert hne
  cases hl : env.latestInstalled with
  | none => intro hne; simp at hne
  | some v =>
  cases hf : env.fetchManifest with
  | error e => intro hne; simp at hne
  | ok r =>
  cases hr : env.readStateOk with
  | error e => intro hne; simp at hne
  | ok u =>
  simp only []
  by_cases heq : env.stored.getD 0 = r
  · rw [if_pos heq]
    intro hne; simp at hne
  · rw [if_neg heq]
    cases hc : env.syncConfig with
    | error e => intro hne; simp at hne
    | ok u1 =>
    cases hm : env.syncMods with
    | error e => intro hne; simp at hne
    | ok u2 =>
    cases hw : env.writeState with
    | error e => intro hne; simp at hne
    | ok u3 =>
    intro hne
    exact ⟨rfl, rfl, rfl, r, rfl, rfl⟩

theorem install_reset_before_lookup (env : InstallEnv) (version : Nat)
    (h1 : env.installDownloader = Except.ok ()) (h2 : env.newDownloader = Except.ok ())
    (h3 : env.isLoggedIn = true) (m : List (Nat × String))
    (h4 : env.fetchManifest = Except.ok m) (h5 : lookupManifestId m version = none)
    (h6 : env.preExistingVersionDir = true) :
    (download_and_setup env version).versionDirReset = true
    ∧ (download_and_setup env version).res
        = Except.error ("No depot manifest id for game version "
            ++ toString version ++ " in remote manifest.") := by
  unfold download_and_setup download_and_setup_inner
  rw [h1, h2, h3, h4]
  simp only [Bool.not_true, Bool.false_eq_true, if_false]
  rw [h5, h6]
  exact ⟨rfl, rfl⟩

theorem checkZipHeader_iff (bytes : List Nat) :
    checkZipHeader bytes = true ↔ bytes.take 2 = [80, 75] := by
  match bytes with
  | [] => simp [checkZipHeader]
  | [b] => simp [checkZipHeader, List.getD]
  | b0 :: b1 :: rest =>
    simp [checkZipHeader, List.getD]

theorem install_bad_magic (env : InstallEnv) (version : Nat) (bytes : List Nat)
    (h1 : env.installDownloader = Except.ok ()) (h2 : env.newDownloader = Except.ok ())
    (h3 : env.isLoggedIn = true) (m : List (Nat × String))
    (h4 : env.fetchManifest = Except.ok m) (mid : String)
    (h5 : lookupManifestId m version = some mid)
    (h6 : env.downloadDepot = Except.ok ()) (h7 : env.loaderResponse = Except.ok bytes)
    (h8 : bytes.take 2 ≠ [80, 75]) :
    (download_and_setup env version).loaderZipRemoved = true
    ∧ (download_and_setup env version).extractionAttempted = false
    ∧ (download_and_setup env version).res
        = Except.error
            "BepInExPack download is not a valid zip (got non-zip response). Please retry." := by
  have hck : checkZipHeader bytes = false := by
    rw [← Bool.not_eq_true]
    exact fun hc => h8 ((checkZipHeader_iff bytes).mp hc)
  unfold download_and_setup download_and_setup_inner
  rw [h1, h2, h3, h4]
  simp only [Bool.not_true, Bool.false_eq_true, if_false, h5, h6, h7, hck,
             Bool.not_false, if_true]
  exact ⟨trivial, trivial, trivial⟩

theorem ensure_junction_noop (plat : Platform) (shared0 : List (String × FsTree)) :
    ensure_config_junction plat shared0 (LinkState.junctionTo true)
      = { res := Except.ok sharedConfigPath, shared := shared0,
          link := LinkState.junctionTo true, ops := [] } := by
  simp [ensure_config_junction, canonResolvesToShared]

theorem ensure_junction_copy_failure (plat : Platform)
    (shared0 es sh1 : List (String × FsTree)) (err : String)
    (h : copyEntries es shared0 = (sh1, some err)) :
    (ensure_config_junction plat shared0 (LinkState.realDir es)).res
      = Except.ok sharedConfigPath
    ∧ (ensure_config_junction plat shared0 (LinkState.realDir es)).shared = sh1
    ∧ (ensure_config_junction plat shared0 (LinkState.realDir es)).ops
      = [COp.copyToShared, COp.removeDirAll, (create_dir_junction plat).2.2]
    ∧ (ensure_config_junction plat shared0 (LinkState.realDir es)).link
      = (create_dir_junction plat).2.1 := by
  cases plat <;>
    simp [ensure_config_junction, finishJunction, create_dir_junction, h]

/-- C2 counterexample: a sync run that ends as a no-op because no version is
installed returns Ok but emits no event at all — zero terminal events, not
exactly one. -/
theorem C2_counterexample :
    (sync_latest_install_from_manifest envSyncNoInstall).events = []
    ∧ (sync_latest_install_from_manifest envSyncNoInstall).res = Except.ok ()
    ∧ terminalCount (sync_latest_install_from_manifest envSyncNoInstall).events = 0 :=
  ⟨rfl, rfl, rfl⟩

/-- C2 (amended): download_and_setup emits exactly one terminal event on every
run; sync_latest_install_from_manifest emits exactly one terminal event on
every run that passes its gating phase (a version is installed, the manifest
fetch and state read succeed, and the stored counter differs from the remote
one), while runs that end early in the gating phase — no installed version,
fetch or read failure, or an up-to-date counter — emit no terminal event. -/
theorem C2_terminal_events :
    (∀ (env : InstallEnv) (version : Nat),
        terminalCount (download_and_setup env version).events = 1)
    ∧ (∀ (env : SyncEnv) (v r : Nat),
        env.latestInstalled = some v → env.fetchManifest = Except.ok r →
        env.readStateOk = Except.ok () → env.stored.getD 0 ≠ r →
        terminalCount (sync_latest_install_from_manifest env).events = 1)
    ∧ (∀ env : SyncEnv,
        (env.latestInstalled = none
          ∨ (∃ e, env.fetchManifest = Except.error e)
          ∨ (∃ e, env.readStateOk = Except.error e)
          ∨ (∃ r, env.fetchManifest = Except.ok r ∧ env.readStateOk = Except.ok ()
              ∧ env.stored.getD 0 = r)) →
        terminalCount (sync_latest_install_from_manifest env).events = 0) :=
  ⟨download_and_setup_one_terminal, sync_terminal_gated, sync_terminal_early⟩

/-- Witness for C2: one fully successful install run, one gated sync run
whose first step fails, and one no-op sync run. -/
theorem C2_witness :
    terminalCount (download_and_setup envInstallOk 1).events = 1
    ∧ terminalCount (sync_latest_install_from_manifest envSyncStep1Fail).events = 1
    ∧ terminalCount (sync_latest_install_from_manifest envSyncNoInstall).events = 0 :=
  ⟨C2_terminal_events.1 envInstallOk 1,
   C2_terminal_events.2.1 envSyncStep1Fail 3 7 rfl rfl rfl (by decide),
   C2_terminal_events.2.2 envSyncNoInstall (Or.inl rfl)⟩

/-- C3 counterexample: the non-windows create_dir_junction fallback returns
the very same success value Ok(()) as the windows junction path, and
ensure_config_junction returns the same Ok(shared) on both platforms — the
degraded mode is not surfaced to the caller. -/
theorem C3_counterexample :
    (create_dir_junction Platform.other).1 = Except.ok ()
    ∧ (create_dir_junction Platform.windows).1 = Except.ok ()
    ∧ (ensure_config_junction Platform.other [] LinkState.absent).res
      = (ensure_config_junction Platform.windows [] LinkState.absent).res :=
  ⟨rfl, rfl, rfl⟩

/-- C3 (amended): when native junctions are unavailable, the fallback creates
a plain directory at the per-version config path and returns exactly the
success value of the junction path; the degradation is observable only in the
resulting link state, never in the returned value. -/
theorem C3_fallback_silent (shared0 : List (String × FsTree)) :
    (ensure_config_junction Platform.other shared0 LinkState.absent).res
      = Except.ok sharedConfigPath
    ∧ (ensure_config_junction Platform.windows shared0 LinkState.absent).res
      = Except.ok sharedConfigPath
    ∧ (ensure_config_junction Platform.other shared0 LinkState.absent).link
      = LinkState.realDir []
    ∧ (ensure_config_junction Platform.windows shared0 LinkState.absent).link
      = LinkState.junctionTo true :=
  ⟨rfl, rfl, rfl, rfl⟩

/-- C4 counterexample: with a pre-existing versions/v1 and a fetched manifest
holding no depot id for version 1, the failed-lookup run has already deleted
and recreated the version directory — it is not left unchanged. -/
theorem C4_counterexample :
    lookupManifestId [] 1 = none
    ∧ (download_and_setup envInstallNoManifest 1).versionDirReset = true
    ∧ (download_and_setup envInstallNoManifest 1).res
      = Except.error "No depot manifest id for game version 1 in remote manifest." :=
  ⟨rfl, rfl, rfl⟩

/-- C4 (amended): in step 2 of download_and_setup the pre-existing version
directory is deleted and recreated empty before the depot manifest id is
looked up; when the lookup fails, the run errors but the directory has
already been reset. -/
theorem C4_reset_before_lookup (env : InstallEnv) (version : Nat)
    (h1 : env.installDownloader = Except.ok ()) (h2 : env.newDownloader = Except.ok ())
    (h3 : env.isLoggedIn = true) (m : List (Nat × String))
    (h4 : env.fetchManifest = Except.ok m) (h5 : lookupManifestId m version = none)
    (h6 : env.preExistingVersionDir = true) :
    (download_and_setup env version).versionDirReset = true
    ∧ (download_and_setup env version).res
        = Except.error ("No depot manifest id for game version "
            ++ toString version ++ " in remote manifest.") :=
  install_reset_before_lookup env version h1 h2 h3 m h4 h5 h6

/-- Witness for C4 at the concrete no-manifest environment. -/
theorem C4_witness :
    (download_and_setup envInstallNoManifest 1).versionDirReset = true
    ∧ (download_and_setup envInstallNoManifest 1).res
      = Except.error ("No depot manifest id for game version "
          ++ toString 1 ++ " in remote manifest.") :=
  C4_reset_before_lookup envInstallNoManifest 1 rfl rfl rfl [] rfl rfl rfl

/-- C6: when a gated sync run fails at either step, the persisted manifest
counter keeps its prior value and the run ends in an error; conversely the
counter changes only when both steps (and the final write) succeeded, and
then it becomes the freshly fetched remote value. -/
theorem C6_manifest_state :
    (∀ (env : SyncEnv) (v r : Nat),
        env.latestInstalled = some v → env.fetchManifest = Except.ok r →
        env.readStateOk = Except.ok () → env.stored.getD 0 ≠ r →
        ((∃ e, env.syncConfig = Except.error e) ∨ (∃ e, env.syncMods = Except.error e)) →
        (sync_latest_install_from_manifest env).stored = env.stored
        ∧ ∃ e, (sync_latest_install_from_manifest env).res = Except.error e)
    ∧ (∀ env : SyncEnv,
        (sync_latest_install_from_manifest env).stored ≠ env.stored →
        env.syncConfig = Except.ok () ∧ env.syncMods = Except.ok ()
        ∧ env.writeState = Except.ok ()
        ∧ ∃ r, env.fetchManifest = Except.ok r
            ∧ (sync_latest_install_from_manifest env).stored = some r) :=
  ⟨sync_state_on_failure, sync_state_written_only_on_success⟩

/-- Witness for C6: the Sync Config failure run keeps the stored counter. -/
theorem C6_witness :
    (sync_latest_install_from_manifest envSyncStep1Fail).stored = envSyncStep1Fail.stored
    ∧ ∃ e, (sync_latest_install_from_manifest envSyncStep1Fail).res = Except.error e :=
  C6_manifest_state.1 envSyncStep1Fail 3 7 rfl rfl rfl (by decide)
    (Or.inl ⟨"config download failed", rfl⟩)

/-- C8: a downloaded loader archive whose first two bytes are not 'P','K'
(80, 75) — including one shorter than two bytes — is deleted, no extraction
is attempted, and the run fails with the download error. -/
theorem C8_bad_magic (env : InstallEnv) (version : Nat) (bytes : List Nat)
    (h1 : env.installDownloader = Except.ok ()) (h2 : env.newDownloader = Except.ok ())
    (h3 : env.isLoggedIn = true) (m : List (Nat × String))
    (h4 : env.fetchManifest = Except.ok m) (mid : String)
    (h5 : lookupManifestId m version = some mid)
    (h6 : env.downloadDepot = Except.ok ()) (h7 : env.loaderResponse = Except.ok bytes)
    (h8 : bytes.take 2 ≠ [80, 75]) :
    (download_and_setup env version).loaderZipRemoved = true
    ∧ (download_and_setup env version).extractionAttempted = false
    ∧ (download_and_setup env version).res
        = Except.error
            "BepInExPack download is not a valid zip (got non-zip response). Please retry." :=
  install_bad_magic env version bytes h1 h2 h3 m h4 mid h5 h6 h7 h8

/-- Witness for C8: an HTML error body starting "<h" is rejected and deleted
without extraction. -/
theorem C8_witness :
    (download_and_setup envInstallBadZip 1).loaderZipRemoved = true
    ∧ (download_and_setup envInstallBadZip 1).extractionAttempted = false
    ∧ (download_and_setup envInstallBadZip 1).res
      = Except.error
          "BepInExPack download is not a valid zip (got non-zip response). Please retry." :=
  C8_bad_magic envInstallBadZip 1 [60, 104] rfl rfl rfl [(1, "mid1")] rfl "mid1" rfl rfl rfl
    (by decide)

/-- C9: on a game root whose config path already canonically resolves to the
shared directory, ensure_config_junction returns the shared path at once and
performs no move, removal, or link creation, and a second call behaves
identically. -/
theorem C9_ensure_config_junction_idempotent (plat : Platform)
    (shared0 : List (String × FsTree)) :
    ensure_config_junction plat shared0 (LinkState.junctionTo true)
      = { res := Except.ok sharedConfigPath, shared := shared0,
          link := LinkState.junctionTo true, ops := [] }
    ∧ ensure_config_junction plat
        (ensure_config_junction plat shared0 (LinkState.junctionTo true)).shared
        (ensure_config_junction plat shared0 (LinkState.junctionTo true)).link
      = { res := Except.ok sharedConfigPath, shared := shared0,
          link := LinkState.junctionTo true, ops := [] } := by
  have h := ensure_junction_noop plat shared0
  refine ⟨h, ?_⟩
  simp only [h]

/-- C10: when a genuine directory occupies the per-version config path and
the add-only copy of its contents into the shared directory fails, the error
is discarded (the call still returns Ok(shared)), the original tree is
removed regardless, and the shared directory holds only what the partial copy
reached — anything else that lived only in the old tree is gone. -/
theorem C10_copy_failure_discarded (plat : Platform)
    (shared0 es sh1 : List (String × FsTree)) (err : String)
    (h : copyEntries es shared0 = (sh1, some err)) :
    (ensure_config_junction plat shared0 (LinkState.realDir es)).res
      = Except.ok sharedConfigPath
    ∧ (ensure_config_junction plat shared0 (LinkState.realDir es)).shared = sh1
    ∧ (ensure_config_junction plat shared0 (LinkState.realDir es)).ops
      = [COp.copyToShared, COp.removeDirAll, (create_dir_junction plat).2.2]
    ∧ (ensure_config_junction plat shared0 (LinkState.realDir es)).link
      = (create_dir_junction plat).2.1 := by
  cases plat <;>
    simp [ensure_config_junction, finishJunction, create_dir_junction, h]

/-- Witness for C10: the old config directory holds x/f.txt = "ONLY", the
shared directory has a plain file named x, so the copy fails at once; the
call nevertheless succeeds, the old tree is replaced by the junction, and
x/f.txt exists nowhere afterwards. -/
theorem C10_witness :
    copyEntries [("x", FsTree.dir [("f.txt", FsTree.file "ONLY")])]
        [("x", FsTree.file "blocked")]
      = ([("x", FsTree.file "blocked")], some "create_dir_all failed")
    ∧ (ensure_config_junction Platform.windows [("x", FsTree.file "blocked")]
        (LinkState.realDir [("x", FsTree.dir [("f.txt", FsTree.file "ONLY")])])).res
      = Except.ok sharedConfigPath
    ∧ (ensure_config_junction Platform.windows [("x", FsTree.file "blocked")]
        (LinkState.realDir [("x", FsTree.dir [("f.txt", FsTree.file "ONLY")])])).shared
      = [("x", FsTree.file "blocked")]
    ∧ (ensure_config_junction Platform.windows [("x", FsTree.file "blocked")]
        (LinkState.realDir [("x", FsTree.dir [("f.txt", FsTree.file "ONLY")])])).link
      = LinkState.junctionTo true
    ∧ FsTree.getPath
        (FsTree.dir (ensure_config_junction Platform.windows [("x", FsTree.file "blocked")]
          (LinkState.realDir [("x", FsTree.dir [("f.txt", FsTree.file "ONLY")])])).shared)
        ["x", "f.txt"] = none := by
  have hcopy : copyEntries [("x", FsTree.dir [("f.txt", FsTree.file "ONLY")])]
      [("x", FsTree.file "blocked")]
      = ([("x", FsTree.file "blocked")], some "create_dir_all failed") := by
    simp [copyEntries, lookupEntry]
  have h := C10_copy_failure_discarded Platform.windows
    [("x", FsTree.file "blocked")] [("x", FsTree.dir [("f.txt", FsTree.file "ONLY")])]
    [("x", FsTree.file "blocked")] "create_dir_all failed" hcopy
  refine ⟨hcopy, h.1, h.2.1, h.2.2.2, ?_⟩
  rw [h.2.1]
  simp [FsTree.getPath, lookupEntry]
